import Mathlib

/-!
# Shallow embedding of the whale-tracker ingestion and caching service

This file embeds the core of `app/whale_service.py` (together with the record
shape from `app/schemas.py`) and proves the specified properties about it.

Modelling conventions:
* Python floats (`amount`, `min_amount`, `time.time()` values) are modelled as
  rationals `ℚ`; only order comparisons and equality are used by the code, and
  those agree with the float comparisons on representable values.
* A raw provider record (`item` in the source) is a structure of the JSON
  fields the code reads.  The `value` field is `Option (Option ℚ)`:
  `none` models a missing `"value"` key, `some none` a present value on which
  `float(...)` raises (caught by the code), `some (some q)` a value parsing
  to `q`.
* `item.get("rawContract") or {}` followed by `.get("address")` is collapsed
  into one optional field `rawContractAddress`.
* Python exceptions escaping a function are modelled with `Except PyError`.
* The network call `httpx.post` is modelled by passing the provider's
  response for each category as an explicit `ProviderResponse` argument; an
  `httpx.HTTPError` (caught by the code) is the `httpError` constructor.
* `observed_at` (a wall-clock stamp), `usd_value` and `timestamp` (always
  `None` on this code path) are omitted from the record: no property reads
  them.
* `list.sort(key=..., reverse=True)` is a stable descending sort; it is
  modelled by Mathlib's stable `List.insertionSort` with the relation
  "sort key is at least as large", which is extensionally the same function.
-/

namespace WhaleTracker

/-- Canonical transfer record, from `WhaleTransfer` in `app/schemas.py`
restricted to the fields the service writes and the properties read.
`block_number` is an `Int` because the code stores the result of
`int(block_hex, 16)`, which can be any integer. -/
structure WhaleTransfer where
  tx_hash : String
  from_address : String
  to_address : String
  token_symbol : String
  token_address : Option String
  amount : ℚ
  block_number : Int
  chain : String
  deriving DecidableEq, Repr

/-- One raw transfer object from the provider's JSON response.  Field names
follow the JSON keys read by the source (`value`, `rawContract.address`,
`asset`, `blockNum`, `hash`, `from`, `to`). -/
structure RawItem where
  value : Option (Option ℚ)
  rawContractAddress : Option String
  asset : Option String
  blockNum : Option String
  hash : Option String
  fromAddr : Option String
  toAddr : Option String
  deriving DecidableEq, Repr

/-- The Python exceptions the embedded code can raise. -/
inductive PyError where
  /-- The `RuntimeError("ALCHEMY_API_KEY is missing")` from `_get_alchemy_url`. -/
  | runtimeError
  /-- The `ValueError` from `int(block_hex, 16)` on an unparsable block number. -/
  | valueError
  deriving DecidableEq, Repr

/-- What the provider does on one categorized query: either the HTTP layer
fails (`httpx.HTTPError`, which includes the `raise_for_status` case), or it
returns a JSON body whose `result.transfers` list is `transfers` (a missing
`result` key is the `ok []` case). -/
inductive ProviderResponse where
  | httpError
  | ok (transfers : List RawItem)
  deriving DecidableEq, Repr

/-- Embeds `_get_alchemy_url` from `app/whale_service.py`: raises `RuntimeError`
when `ALCHEMY_API_KEY` is falsy (absent or the empty string). -/
def get_alchemy_url (apiKey : Option String) : Except PyError String :=
  match apiKey with
  | none => .error .runtimeError
  | some k =>
      if k = "" then .error .runtimeError
      else .ok ("https://eth-mainnet.g.alchemy.com/v2/" ++ k)

/-- Embeds `_call_alchemy` from `app/whale_service.py`: a transport or HTTP-status
error is caught and turned into `[]`; otherwise the `result.transfers` list
of the response body is returned. -/
def call_alchemy (resp : ProviderResponse) : List RawItem :=
  match resp with
  | .httpError => []
  | .ok ts => ts

/-- The `TRACKED_ASSETS` set from `fetch_whale_transfers_from_provider`. -/
def TRACKED_ASSETS : List String := ["ETH", "USDC", "USDT", "WBTC"]

/-- Uppercases one ASCII character, as Python's `str.upper` does on the
ASCII range (provider symbols and the `"UNKNOWN"` default are ASCII). -/
def pyCharUpper (c : Char) : Char :=
  if 'a' ≤ c ∧ c ≤ 'z' then Char.ofNat (c.toNat - 32) else c

/-- Models Python's `str.upper()` on ASCII strings. -/
def pyUpper (s : String) : String := ⟨s.data.map pyCharUpper⟩

/-- Python `x or d` for an optional string `x`: the default is taken when the
value is missing or falsy (the empty string). -/
def pyOr (x : Option String) (d : String) : String :=
  match x with
  | none => d
  | some s => if s = "" then d else s

/-- Value of one hexadecimal digit, `none` on a non-hex-digit character. -/
def hexDigitVal (c : Char) : Option Nat :=
  if '0' ≤ c ∧ c ≤ '9' then some (c.toNat - '0'.toNat)
  else if 'a' ≤ c ∧ c ≤ 'f' then some (c.toNat - 'a'.toNat + 10)
  else if 'A' ≤ c ∧ c ≤ 'F' then some (c.toNat - 'A'.toNat + 10)
  else none

/-- Reads a non-empty all-hex-digit string as a natural number. -/
def hexDigitsToNat (cs : List Char) : Option Nat :=
  match cs with
  | [] => none
  | _ => cs.foldl (fun acc c => acc.bind fun n => (hexDigitVal c).map fun d => n * 16 + d)
      (some 0)

/-- Drops an optional `0x` / `0X` marker, as Python's `int(s, 16)` allows. -/
def dropHexMarker (cs : List Char) : List Char :=
  match cs with
  | '0' :: 'x' :: rest => rest
  | '0' :: 'X' :: rest => rest
  | _ => cs

/-- Python's `int(s, 16)`: optional sign, optional `0x`/`0X` marker, then at
least one hex digit; `none` models the `ValueError` raised otherwise.
(Python additionally tolerates surrounding whitespace and underscores
between digits; no property here depends on those inputs.) -/
def pyIntBase16 (s : String) : Option Int :=
  match s.toList with
  | '-' :: rest => (hexDigitsToNat (dropHexMarker rest)).map fun n => -(n : Int)
  | '+' :: rest => (hexDigitsToNat (dropHexMarker rest)).map fun n => (n : Int)
  | cs => (hexDigitsToNat (dropHexMarker cs)).map fun n => (n : Int)

/-- Embeds `block_num = int(block_hex, 16) if block_hex else 0` from the source:
a falsy `blockNum` (missing key or empty string) defaults to `0`; a present
non-empty value is parsed, and an unparsable one raises `ValueError`. -/
def parseBlockNum (blockNum : Option String) : Except PyError Int :=
  match blockNum with
  | none => .ok 0
  | some s =>
      if s = "" then .ok 0
      else
        match pyIntBase16 s with
        | none => .error .valueError
        | some n => .ok n

/-- One iteration of the normalization loop in
`fetch_whale_transfers_from_provider`: `.ok none` models `continue`
(the record is dropped), `.ok (some wt)` models appending the record, and
`.error e` models an uncaught exception escaping the loop. -/
def normalizeItem (min_amount : ℚ) (item : RawItem) : Except PyError (Option WhaleTransfer) :=
  match item.value with
  | none => .ok none
  | some none => .ok none
  | some (some amount_float) =>
      if amount_float < min_amount then .ok none
      else
        let token_addr := item.rawContractAddress
        let asset_symbol :=
          match token_addr with
          | none => "ETH"
          | some _ => pyUpper (pyOr item.asset "UNKNOWN")
        if asset_symbol ∉ TRACKED_ASSETS then .ok none
        else
          match parseBlockNum item.blockNum with
          | .error e => .error e
          | .ok block_num =>
              .ok (some
                { tx_hash := item.hash.getD ""
                  from_address := item.fromAddr.getD ""
                  to_address := item.toAddr.getD ""
                  token_symbol := asset_symbol
                  token_address := token_addr
                  amount := amount_float
                  block_number := block_num
                  chain := "eth" })

/-- The whole normalization loop over `raw_transfers`, in input order. -/
def processItems (min_amount : ℚ) : List RawItem → Except PyError (List WhaleTransfer)
  | [] => .ok []
  | item :: rest =>
      match normalizeItem min_amount item with
      | .error e => .error e
      | .ok none => processItems min_amount rest
      | .ok (some wt) =>
          match processItems min_amount rest with
          | .error e => .error e
          | .ok tl => .ok (wt :: tl)

/-- The sort key `t.block_number or 0` of the final sort.  On this code path
`block_number` is always an integer, so the Python `or` only maps the falsy
value `0` to `0`, i.e. the key is the block number itself. -/
def sortKey (t : WhaleTransfer) : Int :=
  if t.block_number = 0 then 0 else t.block_number

/-- The ordering used by `transfers.sort(key=..., reverse=True)`: `a` may
come before `b` iff `a`'s key is at least `b`'s. -/
def blockDescRel (a b : WhaleTransfer) : Prop := sortKey b ≤ sortKey a

instance : DecidableRel blockDescRel := fun a b =>
  show Decidable (sortKey b ≤ sortKey a) from inferInstance

instance : IsTotal WhaleTransfer blockDescRel :=
  ⟨fun a b => (le_total (sortKey a) (sortKey b)).symm⟩

instance : IsTrans WhaleTransfer blockDescRel :=
  ⟨fun _ _ _ hab hbc => le_trans hbc hab⟩

/-- Embeds `transfers.sort(key=lambda t: t.block_number or 0, reverse=True)`:
a stable sort, descending in the key. -/
def sortByBlockDesc (l : List WhaleTransfer) : List WhaleTransfer :=
  l.insertionSort blockDescRel

/-- Embeds `fetch_whale_transfers_from_provider` from `app/whale_service.py`.
The two categorized provider calls are passed in as `respExternal` and
`respErc20`. -/
def fetch_whale_transfers_from_provider (apiKey : Option String)
    (respExternal respErc20 : ProviderResponse)
    (limit : Nat) (min_amount : ℚ) : Except PyError (List WhaleTransfer) :=
  match get_alchemy_url apiKey with
  | .error e => .error e
  | .ok _url =>
      let raw_eth := call_alchemy respExternal
      let raw_erc20 := call_alchemy respErc20
      let raw_transfers := raw_eth ++ raw_erc20
      match processItems min_amount raw_transfers with
      | .error e => .error e
      | .ok transfers => .ok ((sortByBlockDesc transfers).take limit)

/-- The module-level cache state: `_last_fetch_ts` and `_last_fetch_data`. -/
structure CacheState where
  last_fetch_ts : ℚ
  last_fetch_data : List WhaleTransfer
  deriving DecidableEq, Repr

/-- The TTL constant `CACHE_TTL = 30` seconds. -/
def CACHE_TTL : ℚ := 30

/-- The cache state at process start: `_last_fetch_ts = 0.0`,
`_last_fetch_data = []`. -/
def initialCacheState : CacheState :=
  { last_fetch_ts := 0, last_fetch_data := [] }

/-- The guard `_last_fetch_data and (now - _last_fetch_ts) < CACHE_TTL` of
`fetch_whales`: the cached list must be truthy, i.e. non-empty. -/
def cacheHit (st : CacheState) (now : ℚ) : Prop :=
  st.last_fetch_data ≠ [] ∧ now - st.last_fetch_ts < CACHE_TTL

instance (st : CacheState) (now : ℚ) : Decidable (cacheHit st now) :=
  inferInstanceAs (Decidable (_ ∧ _))

/-- Embeds `fetch_whales` from `app/whale_service.py`, with the module-level cache
state passed in and out explicitly and `time.time()` passed as `now`. -/
def fetch_whales (st : CacheState) (now : ℚ) (apiKey : Option String)
    (respExternal respErc20 : ProviderResponse)
    (limit : Nat) (min_amount : ℚ) :
    Except PyError (List WhaleTransfer × CacheState) :=
  if cacheHit st now then
    let filtered := st.last_fetch_data.filter fun t => t.amount ≥ min_amount
    .ok (filtered.take (min limit filtered.length), st)
  else
    let limit2 := min limit 1000
    match fetch_whale_transfers_from_provider apiKey respExternal respErc20
        limit2 min_amount with
    | .error e => .error e
    | .ok fresh =>
        let filtered := fresh.filter fun t => t.amount ≥ min_amount
        .ok (filtered.take (min limit2 filtered.length),
          { last_fetch_ts := now, last_fetch_data := fresh })

/-! ## Concrete example data

Raw records and the transfer records the pipeline produces from them, used
as concrete inputs for the individual properties below. -/

/-- A raw native-ETH record whose `blockNum` is present but not hexadecimal:
`int("zz", 16)` raises `ValueError`. -/
def itemC1bad : RawItem :=
  { value := some (some 150), rawContractAddress := none, asset := none,
    blockNum := some "zz", hash := some "0x3", fromAddr := some "0xA",
    toAddr := some "0xB" }

/-- A raw native-ETH record that normalizes cleanly. -/
def itemC1good : RawItem :=
  { value := some (some 150), rawContractAddress := none, asset := none,
    blockNum := some "0x64", hash := some "0x1", fromAddr := some "0xA",
    toAddr := some "0xB" }

/-- A raw native-ETH record above any threshold used with it. -/
def itemC2 : RawItem :=
  { value := some (some 150), rawContractAddress := none, asset := none,
    blockNum := some "0x64", hash := some "0x2", fromAddr := some "0xA",
    toAddr := some "0xB" }

/-- The record the pipeline produces from `itemC2`. -/
def recC2 : WhaleTransfer :=
  { tx_hash := "0x2", from_address := "0xA", to_address := "0xB",
    token_symbol := "ETH", token_address := none, amount := 150,
    block_number := 100, chain := "eth" }

/-- A cached record used to warm concrete cache states. -/
def recC3 : WhaleTransfer :=
  { tx_hash := "0x1", from_address := "0xA", to_address := "0xB",
    token_symbol := "ETH", token_address := none, amount := 150,
    block_number := 100, chain := "eth" }

/-- Raw records for one concrete fetch cycle: two from the `external`
category, two from the `erc20` category, with a block-number tie between
`itemC4b` and `itemC4c`. -/
def itemC4a : RawItem :=
  { value := some (some 150), rawContractAddress := none, asset := none,
    blockNum := some "0x5", hash := some "0xa1", fromAddr := some "0xA",
    toAddr := some "0xB" }

def itemC4b : RawItem :=
  { value := some (some 200), rawContractAddress := some "0xc", asset := some "USDC",
    blockNum := some "0x3", hash := some "0xb1", fromAddr := some "0xA",
    toAddr := some "0xB" }

def itemC4c : RawItem :=
  { value := some (some 300), rawContractAddress := some "0xd", asset := some "usdt",
    blockNum := some "0x3", hash := some "0xc1", fromAddr := some "0xA",
    toAddr := some "0xB" }

def itemC4d : RawItem :=
  { value := some (some 400), rawContractAddress := none, asset := none,
    blockNum := some "0x7", hash := some "0xd1", fromAddr := some "0xA",
    toAddr := some "0xB" }

def recC4a : WhaleTransfer :=
  { tx_hash := "0xa1", from_address := "0xA", to_address := "0xB",
    token_symbol := "ETH", token_address := none, amount := 150,
    block_number := 5, chain := "eth" }

def recC4b : WhaleTransfer :=
  { tx_hash := "0xb1", from_address := "0xA", to_address := "0xB",
    token_symbol := "USDC", token_address := some "0xc", amount := 200,
    block_number := 3, chain := "eth" }

def recC4c : WhaleTransfer :=
  { tx_hash := "0xc1", from_address := "0xA", to_address := "0xB",
    token_symbol := "USDT", token_address := some "0xd", amount := 300,
    block_number := 3, chain := "eth" }

def recC4d : WhaleTransfer :=
  { tx_hash := "0xd1", from_address := "0xA", to_address := "0xB",
    token_symbol := "ETH", token_address := none, amount := 400,
    block_number := 7, chain := "eth" }

/-- A raw WBTC token record and its normalized form. -/
def itemC5 : RawItem :=
  { value := some (some 120), rawContractAddress := some "0xe", asset := some "WBTC",
    blockNum := some "0x9", hash := some "0xe1", fromAddr := some "0xA",
    toAddr := some "0xB" }

def recC5 : WhaleTransfer :=
  { tx_hash := "0xe1", from_address := "0xA", to_address := "0xB",
    token_symbol := "WBTC", token_address := some "0xe", amount := 120,
    block_number := 9, chain := "eth" }

/-- Two cached records with amounts on either side of a threshold of 10,
the smaller one at the higher block number. -/
def rec5C6 : WhaleTransfer :=
  { tx_hash := "0xf1", from_address := "0xA", to_address := "0xB",
    token_symbol := "ETH", token_address := none, amount := 5,
    block_number := 2, chain := "eth" }

def rec10C6 : WhaleTransfer :=
  { tx_hash := "0xf2", from_address := "0xA", to_address := "0xB",
    token_symbol := "ETH", token_address := none, amount := 10,
    block_number := 1, chain := "eth" }

/-- A warm cache state holding `rec5C6` and `rec10C6`, fetched at time 0. -/
def stC6 : CacheState :=
  { last_fetch_ts := 0, last_fetch_data := [rec5C6, rec10C6] }

/-- A raw record whose `blockNum` is present and non-empty but not parsable
as base-16 (`int("0xQQ", 16)` raises `ValueError`). -/
def itemC8bad : RawItem :=
  { value := some (some 200), rawContractAddress := none, asset := none,
    blockNum := some "0xQQ", hash := none, fromAddr := none, toAddr := none }

/-- A raw record whose amount is exactly zero. -/
def itemC9zero : RawItem :=
  { value := some (some 0), rawContractAddress := none, asset := none,
    blockNum := some "0x1", hash := some "0x9", fromAddr := some "0xA",
    toAddr := some "0xB" }

/-- The record the pipeline produces from `itemC9zero` at threshold 0. -/
def recC9zero : WhaleTransfer :=
  { tx_hash := "0x9", from_address := "0xA", to_address := "0xB",
    token_symbol := "ETH", token_address := none, amount := 0,
    block_number := 1, chain := "eth" }

/-- A raw record with no `"value"` key at all. -/
def itemC9miss : RawItem :=
  { value := none, rawContractAddress := none, asset := none,
    blockNum := some "0x1", hash := some "0x8", fromAddr := some "0xA",
    toAddr := some "0xB" }

/-- A raw native-ETH record above the 100 threshold. -/
def itemC10 : RawItem :=
  { value := some (some 250), rawContractAddress := none, asset := none,
    blockNum := some "0x2a", hash := some "0x7", fromAddr := some "0xA",
    toAddr := some "0xB" }

/-- The record the pipeline produces from `itemC10`. -/
def recC10 : WhaleTransfer :=
  { tx_hash := "0x7", from_address := "0xA", to_address := "0xB",
    token_symbol := "ETH", token_address := none, amount := 250,
    block_number := 42, chain := "eth" }

/-! ## Helper lemmas -/

/-- The sort key `t.block_number or 0` is just the block number. -/
theorem sortKey_eq (t : WhaleTransfer) : sortKey t = t.block_number := by
  unfold sortKey
  split <;> simp_all

/-- Everything the normalization loop accepts satisfies the amount threshold
and the allowlist, carries the parsed amount, and carries the parsed block
number. -/
theorem normalizeItem_eq_ok_some {m : ℚ} {item : RawItem} {t : WhaleTransfer}
    (h : normalizeItem m item = .ok (some t)) :
    m ≤ t.amount ∧ t.token_symbol ∈ TRACKED_ASSETS ∧
      item.value = some (some t.amount) ∧
      parseBlockNum item.blockNum = .ok t.block_number := by
  rcases hv : item.value with _ | (_ | q)
  · simp only [normalizeItem, hv] at h
    exact Option.noConfusion (Except.ok.inj h)
  · simp only [normalizeItem, hv] at h
    exact Option.noConfusion (Except.ok.inj h)
  · simp only [normalizeItem, hv] at h
    split_ifs at h with h1 h2
    · exact Option.noConfusion (Except.ok.inj h)
    · rcases hb : parseBlockNum item.blockNum with e | bn <;> rw [hb] at h
      · simp at h
      · injection h with h
        injection h with h
        subst h
        exact ⟨not_lt.mp h1, h2, rfl, rfl⟩
    · exact Option.noConfusion (Except.ok.inj h)

/-- A record with a missing `"value"` key, or one whose value does not parse
as a float, is dropped (`continue`), never an error. -/
theorem normalizeItem_bad_value {m : ℚ} {item : RawItem}
    (h : item.value = none ∨ item.value = some none) :
    normalizeItem m item = .ok none := by
  rcases h with h | h <;> simp only [normalizeItem, h]

/-- The block number of the raw record parses (no `ValueError`). -/
def blockNumOk (item : RawItem) : Prop :=
  ∃ n, parseBlockNum item.blockNum = .ok n

/-- The only exception the normalization loop body can raise comes from
`int(block_hex, 16)`: when the block number parses, the body returns. -/
theorem normalizeItem_isOk (m : ℚ) {item : RawItem} (hb : blockNumOk item) :
    ∃ o, normalizeItem m item = .ok o := by
  obtain ⟨n, hn⟩ := hb
  rcases hv : item.value with _ | (_ | q) <;>
    simp only [normalizeItem, hv]
  · exact ⟨none, rfl⟩
  · exact ⟨none, rfl⟩
  · split_ifs with h1 h2
    · exact ⟨none, rfl⟩
    · rw [hn]
      exact ⟨_, rfl⟩
    · exact ⟨none, rfl⟩

/-- Every record the loop outputs was accepted by the loop body on some raw
input record. -/
theorem processItems_mem {m : ℚ} {raw : List RawItem} {out : List WhaleTransfer}
    (h : processItems m raw = .ok out) :
    ∀ t ∈ out, ∃ item ∈ raw, normalizeItem m item = .ok (some t) := by
  induction raw generalizing out with
  | nil =>
      simp only [processItems] at h
      injection h with h
      subst h
      intro t ht
      cases ht
  | cons item rest ih =>
      simp only [processItems] at h
      rcases hn : normalizeItem m item with e | (_ | wt) <;> rw [hn] at h
      · cases h
      · intro t ht
        obtain ⟨it, hit, hq⟩ := ih h t ht
        exact ⟨it, List.mem_cons_of_mem _ hit, hq⟩
      · rcases hr : processItems m rest with e | tl <;> rw [hr] at h
        · cases h
        · injection h with h
          subst h
          intro t ht
          rcases List.mem_cons.mp ht with rfl | ht
          · exact ⟨item, List.mem_cons_self _ _, hn⟩
          · obtain ⟨it, hit, hq⟩ := ih hr t ht
            exact ⟨it, List.mem_cons_of_mem _ hit, hq⟩

/-- When every raw record's block number parses, the loop finishes without
an exception. -/
theorem processItems_isOk (m : ℚ) {raw : List RawItem}
    (hb : ∀ item ∈ raw, blockNumOk item) :
    ∃ out, processItems m raw = .ok out := by
  induction raw with
  | nil => exact ⟨[], rfl⟩
  | cons item rest ih =>
      obtain ⟨out, hout⟩ := ih fun it hit => hb it (List.mem_cons_of_mem _ hit)
      obtain ⟨o, ho⟩ := normalizeItem_isOk m (hb item (List.mem_cons_self _ _))
      rcases o with _ | wt
      · exact ⟨out, by simp only [processItems, ho, hout]⟩
      · exact ⟨wt :: out, by simp only [processItems, ho, hout]⟩

/-- The sort is a permutation: no record is created or lost. -/
theorem sortByBlockDesc_perm (l : List WhaleTransfer) :
    List.Perm (sortByBlockDesc l) l :=
  List.perm_insertionSort blockDescRel l

/-- The sort output is pairwise non-increasing in `block_number`. -/
theorem sortByBlockDesc_sorted (l : List WhaleTransfer) :
    (sortByBlockDesc l).Pairwise fun a b => b.block_number ≤ a.block_number := by
  have h : (sortByBlockDesc l).Pairwise blockDescRel :=
    List.sorted_insertionSort blockDescRel l
  exact h.imp fun {a b} hab => by
    have := hab
    rw [blockDescRel, sortKey_eq, sortKey_eq] at this
    exact this

/-- Stability of one ordered insertion, phrased through `filter`: the records
at any single block number keep their relative order. -/
theorem filter_orderedInsert (b : Int) (x : WhaleTransfer) (l : List WhaleTransfer) :
    (l.orderedInsert blockDescRel x).filter (fun t => t.block_number = b)
      = if x.block_number = b
        then x :: l.filter (fun t => t.block_number = b)
        else l.filter (fun t => t.block_number = b) := by
  induction l with
  | nil =>
      by_cases hx : x.block_number = b <;>
        simp [List.orderedInsert, List.filter_cons, hx]
  | cons y ys ih =>
      by_cases hr : blockDescRel x y
      · rw [List.orderedInsert, if_pos hr]
        by_cases hx : x.block_number = b <;>
          simp [List.filter_cons, hx]
      · rw [List.orderedInsert, if_neg hr]
        have hlt : sortKey x < sortKey y := not_le.mp hr
        rw [sortKey_eq, sortKey_eq] at hlt
        by_cases hx : x.block_number = b
        · have hy : ¬ y.block_number = b := by omega
          simp [List.filter_cons, hx, hy, ih]
        · by_cases hy : y.block_number = b <;>
            simp [List.filter_cons, hx, hy, ih]

/-- Stability of the whole sort: filtering the sorted list down to a single
block number gives exactly the input-order records at that block number. -/
theorem filter_sortByBlockDesc (b : Int) (l : List WhaleTransfer) :
    (sortByBlockDesc l).filter (fun t => t.block_number = b)
      = l.filter (fun t => t.block_number = b) := by
  induction l with
  | nil => rfl
  | cons x xs ih =>
      show ((List.insertionSort blockDescRel xs).orderedInsert blockDescRel x).filter _ = _
      rw [filter_orderedInsert]
      have ihs : (List.insertionSort blockDescRel xs).filter (fun t => t.block_number = b)
          = xs.filter (fun t => t.block_number = b) := ih
      rw [List.filter_cons]
      by_cases hx : x.block_number = b <;> simp [hx, ihs]

/-- Everything a successful provider fetch cycle returns meets the cycle's
threshold and the allowlist. -/
theorem provider_mem {key : Option String} {rA rB : ProviderResponse}
    {limit : Nat} {m : ℚ} {out : List WhaleTransfer}
    (h : fetch_whale_transfers_from_provider key rA rB limit m = .ok out) :
    ∀ t ∈ out, m ≤ t.amount ∧ t.token_symbol ∈ TRACKED_ASSETS := by
  intro t ht
  rcases hu : get_alchemy_url key with e | u
  · simp only [fetch_whale_transfers_from_provider, hu] at h
    exact Except.noConfusion h
  · rcases hp : processItems m (call_alchemy rA ++ call_alchemy rB) with e | ts
    · simp only [fetch_whale_transfers_from_provider, hu, hp] at h
      exact Except.noConfusion h
    · simp only [fetch_whale_transfers_from_provider, hu, hp] at h
      injection h with h
      subst h
      have ht2 : t ∈ sortByBlockDesc ts := (List.take_sublist _ _).subset ht
      have ht3 : t ∈ ts := ((sortByBlockDesc_perm ts).mem_iff).mp ht2
      obtain ⟨item, _, hn⟩ := processItems_mem hp t ht3
      have hs := normalizeItem_eq_ok_some hn
      exact ⟨hs.1, hs.2.1⟩

/-- Behaviour of `fetch_whales` when the cache guard holds: serve the old
snapshot filtered by the caller's threshold, state unchanged. -/
theorem fetch_whales_hit_eq {st : CacheState} {now : ℚ} {key : Option String}
    {rA rB : ProviderResponse} {limit : Nat} {m : ℚ} (hc : cacheHit st now) :
    fetch_whales st now key rA rB limit m =
      .ok ((st.last_fetch_data.filter fun t => t.amount ≥ m).take
          (min limit (st.last_fetch_data.filter fun t => t.amount ≥ m).length), st) := by
  rw [fetch_whales, if_pos hc]

/-- Behaviour of `fetch_whales` when the cache guard fails: clamp the limit,
run a fetch cycle, store it, post-filter and truncate. -/
theorem fetch_whales_miss_eq {st : CacheState} {now : ℚ} {key : Option String}
    {rA rB : ProviderResponse} {limit : Nat} {m : ℚ} (hc : ¬ cacheHit st now) :
    fetch_whales st now key rA rB limit m =
      match fetch_whale_transfers_from_provider key rA rB (min limit 1000) m with
      | .error e => .error e
      | .ok fresh =>
          .ok ((fresh.filter fun t => t.amount ≥ m).take
              (min (min limit 1000) (fresh.filter fun t => t.amount ≥ m).length),
            { last_fetch_ts := now, last_fetch_data := fresh }) := by
  rw [fetch_whales, if_neg hc]

/-- Unpacks membership in a truncated amount-filtered list. -/
theorem mem_take_amount_filter {m : ℚ} {l : List WhaleTransfer} {n : Nat}
    {t : WhaleTransfer} (h : t ∈ (l.filter fun u => u.amount ≥ m).take n) :
    m ≤ t.amount ∧ t ∈ l := by
  have h2 := (List.take_sublist _ _).subset h
  have h3 := List.mem_filter.mp h2
  exact ⟨of_decide_eq_true h3.2, h3.1⟩

/-! ## The specified properties -/

/-- C3: every record returned by `fetch_whales`, whether it was served from
the cached snapshot or from a fresh fetch, has `amount ≥ min_amount` of the
current call — even when the snapshot was warmed by an earlier call with a
different, possibly lower, threshold. -/
theorem fetch_whales_respects_min_amount
    (st : CacheState) (now : ℚ) (key : Option String) (rA rB : ProviderResponse)
    (limit : Nat) (m : ℚ) (out : List WhaleTransfer) (st1 : CacheState)
    (h : fetch_whales st now key rA rB limit m = .ok (out, st1)) :
    ∀ t ∈ out, m ≤ t.amount := by
  intro t ht
  by_cases hc : cacheHit st now
  · rw [fetch_whales_hit_eq hc] at h
    injection h with h
    injection h with hA hB
    subst hA
    exact (mem_take_amount_filter ht).1
  · rw [fetch_whales_miss_eq hc] at h
    rcases hf : fetch_whale_transfers_from_provider key rA rB (min limit 1000) m
      with e | fresh <;> rw [hf] at h
    · exact Except.noConfusion h
    · injection h with h
      injection h with hA hB
      subst hA
      exact (mem_take_amount_filter ht).1

/-- Witness for C3 at a concrete warm cache holding one 150-unit record,
queried with threshold 100. -/
theorem fetch_whales_respects_min_amount_witness :
    (100 : ℚ) ≤ recC3.amount :=
  fetch_whales_respects_min_amount { last_fetch_ts := 0, last_fetch_data := [recC3] }
    10 (some "k") .httpError .httpError 5 100 [recC3]
    { last_fetch_ts := 0, last_fetch_data := [recC3] }
    (by rw [fetch_whales_hit_eq ⟨by decide, by norm_num [CACHE_TTL]⟩]; rfl)
    recC3 (by decide)

/-- C2 counterexample: a successful fetch cycle that returns zero records
does NOT warm the cache.  The first call at time 0 succeeds with an empty
snapshot; the second call at time 10 — within the 30-second TTL — does not
reuse that empty snapshot: its result depends on the new provider response
and it overwrites the cache state, because the guard
`_last_fetch_data and ...` treats an empty list as falsy. -/
theorem cache_empty_fetch_not_warm_cex :
    fetch_whales initialCacheState 0 (some "k") (.ok []) (.ok []) 10 0
      = .ok ([], { last_fetch_ts := 0, last_fetch_data := [] })
    ∧ fetch_whales { last_fetch_ts := 0, last_fetch_data := [] } 10 (some "k")
        (.ok [itemC2]) (.ok []) 10 0
      = .ok ([recC2], { last_fetch_ts := 10, last_fetch_data := [recC2] }) :=
  ⟨rfl, rfl⟩

/-- C2 (amended): after a fetch cycle that cached at least one record, any
call within TTL of the warming call is answered purely from the snapshot:
its result does not depend on the credential or on either provider response
(no provider call is observable), and the cache state is returned
unchanged.  A fetch cycle that returned zero records does not enter this
regime: the truthiness guard on `_last_fetch_data` makes the next call fetch
again. -/
theorem cache_hit_serves_snapshot (st : CacheState) (now : ℚ)
    (limit : Nat) (m : ℚ)
    (hne : st.last_fetch_data ≠ []) (hfresh : now - st.last_fetch_ts < CACHE_TTL) :
    ∀ (key key2 : Option String) (rA rB rA2 rB2 : ProviderResponse),
      fetch_whales st now key rA rB limit m = fetch_whales st now key2 rA2 rB2 limit m
      ∧ ∃ out, fetch_whales st now key rA rB limit m = .ok (out, st) := by
  intro key key2 rA rB rA2 rB2
  have hc : cacheHit st now := ⟨hne, hfresh⟩
  constructor
  · rw [fetch_whales_hit_eq hc, fetch_whales_hit_eq hc]
  · rw [fetch_whales_hit_eq hc]
    exact ⟨_, rfl⟩

/-- Witness for the amended C2 at a concrete warm cache. -/
theorem cache_hit_serves_snapshot_witness :
    fetch_whales { last_fetch_ts := 0, last_fetch_data := [recC2] } 10 (some "k")
        (.ok [itemC4a]) .httpError 10 0
      = fetch_whales { last_fetch_ts := 0, last_fetch_data := [recC2] } 10 none
        .httpError (.ok [itemC4b]) 10 0
    ∧ ∃ out, fetch_whales { last_fetch_ts := 0, last_fetch_data := [recC2] } 10 (some "k")
        (.ok [itemC4a]) .httpError 10 0
      = .ok (out, { last_fetch_ts := 0, last_fetch_data := [recC2] }) :=
  cache_hit_serves_snapshot { last_fetch_ts := 0, last_fetch_data := [recC2] } 10 10 0
    (by decide) (by norm_num [CACHE_TTL]) (some "k") none (.ok [itemC4a]) .httpError
    .httpError (.ok [itemC4b])

/-- C4: the output of one fetch cycle is the list of records accepted from
the concatenation of both category queries, stably sorted by block number in
descending (non-increasing) order, truncated to the cycle's limit only after
sorting: the output is exactly the truncation of the sorted accepted list,
the sorted list is a permutation of the accepted list, consecutive output
elements have non-increasing block numbers, and at every single block number
the sorted list preserves the input order of the accepted records. -/
theorem fetch_cycle_sorted_stable_truncated
    (key : Option String) (rA rB : ProviderResponse) (limit : Nat) (m : ℚ)
    (accepted out : List WhaleTransfer)
    (hacc : processItems m (call_alchemy rA ++ call_alchemy rB) = .ok accepted)
    (h : fetch_whale_transfers_from_provider key rA rB limit m = .ok out) :
    out = (sortByBlockDesc accepted).take limit
    ∧ List.Perm (sortByBlockDesc accepted) accepted
    ∧ out.Pairwise (fun a b => b.block_number ≤ a.block_number)
    ∧ ∀ b : Int, (sortByBlockDesc accepted).filter (fun t => t.block_number = b)
        = accepted.filter (fun t => t.block_number = b) := by
  rcases hu : get_alchemy_url key with e | u
  · simp only [fetch_whale_transfers_from_provider, hu] at h
    exact Except.noConfusion h
  · simp only [fetch_whale_transfers_from_provider, hu, hacc] at h
    injection h with h
    subst h
    refine ⟨rfl, sortByBlockDesc_perm accepted, ?_,
      fun b => filter_sortByBlockDesc b accepted⟩
    have hs := sortByBlockDesc_sorted accepted
    exact hs.sublist (List.take_sublist _ _)

/-- Witness for C4 on a concrete cycle: two records per category, a
block-number tie between `recC4b` and `recC4c`, and limit 3, which truncates
the tie's second element after sorting. -/
theorem fetch_cycle_sorted_stable_truncated_witness :
    [recC4d, recC4a, recC4b]
      = (sortByBlockDesc [recC4a, recC4b, recC4c, recC4d]).take 3
    ∧ List.Perm (sortByBlockDesc [recC4a, recC4b, recC4c, recC4d])
        [recC4a, recC4b, recC4c, recC4d]
    ∧ [recC4d, recC4a, recC4b].Pairwise (fun a b => b.block_number ≤ a.block_number)
    ∧ ∀ b : Int, (sortByBlockDesc [recC4a, recC4b, recC4c, recC4d]).filter
          (fun t => t.block_number = b)
        = [recC4a, recC4b, recC4c, recC4d].filter (fun t => t.block_number = b) :=
  fetch_cycle_sorted_stable_truncated (some "k") (.ok [itemC4a, itemC4b])
    (.ok [itemC4c, itemC4d]) 3 0 [recC4a, recC4b, recC4c, recC4d]
    [recC4d, recC4a, recC4b] rfl rfl

/-- C5: allowlist closure.  Every record that survives the normalization and
filter pipeline has its symbol in `TRACKED_ASSETS`; consequently, whenever
the current snapshot satisfies that invariant, both the records returned by
`fetch_whales` and the records of the snapshot it leaves behind satisfy it
too. -/
theorem allowlist_closure
    (mp : ℚ) (raw : List RawItem) (pout : List WhaleTransfer)
    (st : CacheState) (now : ℚ) (key : Option String) (rA rB : ProviderResponse)
    (limit : Nat) (m : ℚ) (out : List WhaleTransfer) (st1 : CacheState)
    (hpipe : processItems mp raw = .ok pout)
    (hinv : ∀ t ∈ st.last_fetch_data, t.token_symbol ∈ TRACKED_ASSETS)
    (hfetch : fetch_whales st now key rA rB limit m = .ok (out, st1)) :
    (∀ t ∈ pout, t.token_symbol ∈ TRACKED_ASSETS)
    ∧ (∀ t ∈ out, t.token_symbol ∈ TRACKED_ASSETS)
    ∧ (∀ t ∈ st1.last_fetch_data, t.token_symbol ∈ TRACKED_ASSETS) := by
  have hpipeAll : ∀ t ∈ pout, t.token_symbol ∈ TRACKED_ASSETS := by
    intro t ht
    obtain ⟨item, _, hn⟩ := processItems_mem hpipe t ht
    exact (normalizeItem_eq_ok_some hn).2.1
  by_cases hc : cacheHit st now
  · rw [fetch_whales_hit_eq hc] at hfetch
    injection hfetch with h
    injection h with hA hB
    subst hA
    subst hB
    exact ⟨hpipeAll, fun t ht => hinv t (mem_take_amount_filter ht).2, hinv⟩
  · rw [fetch_whales_miss_eq hc] at hfetch
    rcases hf : fetch_whale_transfers_from_provider key rA rB (min limit 1000) m
      with e | fresh <;> rw [hf] at hfetch
    · exact Except.noConfusion hfetch
    · injection hfetch with h
      injection h with hA hB
      subst hA
      subst hB
      refine ⟨hpipeAll, ?_, ?_⟩
      · intro t ht
        exact (provider_mem hf t (mem_take_amount_filter ht).2).2
      · intro t ht
        exact (provider_mem hf t ht).2

/-- Witness for C5: a WBTC record through the pipeline, and a cache-hit call
on a snapshot holding that record. -/
theorem allowlist_closure_witness :
    (∀ t ∈ [recC5], t.token_symbol ∈ TRACKED_ASSETS)
    ∧ (∀ t ∈ [recC5], t.token_symbol ∈ TRACKED_ASSETS)
    ∧ (∀ t ∈ ({ last_fetch_ts := 0, last_fetch_data := [recC5] } : CacheState).last_fetch_data,
        t.token_symbol ∈ TRACKED_ASSETS) :=
  allowlist_closure 100 [itemC5] [recC5]
    { last_fetch_ts := 0, last_fetch_data := [recC5] } 10 (some "k") .httpError
    .httpError 5 100 [recC5] { last_fetch_ts := 0, last_fetch_data := [recC5] }
    rfl (by decide)
    (by rw [fetch_whales_hit_eq ⟨by decide, by norm_num [CACHE_TTL]⟩]; rfl)

/-- C6 counterexample: threshold monotonicity fails once the limit
truncates.  The snapshot holds a 5-unit record at block 2 ahead of a 10-unit
record at block 1; with limit 1, the call with threshold 10 returns the
10-unit record, while the call with threshold 0 returns only the 5-unit
record — so the higher-threshold result is not a subset of the
lower-threshold result. -/
theorem threshold_monotonicity_cex :
    fetch_whales stC6 10 (some "k") .httpError .httpError 1 10
      = .ok ([rec10C6], stC6)
    ∧ fetch_whales stC6 10 (some "k") .httpError .httpError 1 0
      = .ok ([rec5C6], stC6)
    ∧ rec10C6 ∉ [rec5C6] :=
  ⟨by rw [fetch_whales_hit_eq ⟨by decide, by norm_num [CACHE_TTL, stC6]⟩]; rfl,
   by rw [fetch_whales_hit_eq ⟨by decide, by norm_num [CACHE_TTL, stC6]⟩]; rfl,
   by decide⟩

/-- C6 (amended): for thresholds `a ≤ b`, the result of a call with
threshold `b` against a warm snapshot is a subset of the result of a call
with threshold `a` against the same snapshot, provided `limit` is at least
the number of snapshot records passing the looser threshold `a` (i.e. the
truncation does not bite; the counterexample shows the subset claim fails
without this proviso). -/
theorem threshold_monotonicity
    (st : CacheState) (now : ℚ) (key key2 : Option String)
    (rA rB rA2 rB2 : ProviderResponse) (limit : Nat) (a b : ℚ)
    (out_a out_b : List WhaleTransfer) (st1 st2 : CacheState)
    (hab : a ≤ b) (hc : cacheHit st now)
    (hlim : (st.last_fetch_data.filter fun t => t.amount ≥ a).length ≤ limit)
    (ha : fetch_whales st now key rA rB limit a = .ok (out_a, st1))
    (hb : fetch_whales st now key2 rA2 rB2 limit b = .ok (out_b, st2)) :
    ∀ t ∈ out_b, t ∈ out_a := by
  rw [fetch_whales_hit_eq hc] at ha hb
  injection ha with ha
  injection ha with hA1 hA2
  subst hA1
  injection hb with hb
  injection hb with hB1 hB2
  subst hB1
  intro t ht
  have h1 := (List.take_sublist _ _).subset ht
  have h2 := List.mem_filter.mp h1
  have hta : t.amount ≥ a := le_trans hab (of_decide_eq_true h2.2)
  have htf : t ∈ st.last_fetch_data.filter fun u => u.amount ≥ a :=
    List.mem_filter.mpr ⟨h2.1, decide_eq_true hta⟩
  rw [min_eq_right hlim, List.take_length]
  exact htf

/-- Witness for the amended C6: same snapshot as the counterexample but with
limit 2, which is enough for the looser query; the subset inclusion holds. -/
theorem threshold_monotonicity_witness :
    rec10C6 ∈ [rec5C6, rec10C6] :=
  threshold_monotonicity stC6 10 (some "k") (some "k") .httpError .httpError
    .httpError .httpError 2 0 10 [rec5C6, rec10C6] [rec10C6] stC6 stC6
    (by norm_num) ⟨by decide, by norm_num [CACHE_TTL, stC6]⟩ (by decide)
    (by rw [fetch_whales_hit_eq ⟨by decide, by norm_num [CACHE_TTL, stC6]⟩]; rfl)
    (by rw [fetch_whales_hit_eq ⟨by decide, by norm_num [CACHE_TTL, stC6]⟩]; rfl)
    rec10C6 (by decide)

/-- C1 counterexample: a parse exception does propagate to the caller of
`fetch_whales`.  With the credential configured and a cold cache, a raw
record whose `blockNum` is `"zz"` — which passes the amount and allowlist
filters — makes `int(block_hex, 16)` raise `ValueError`, and the error
escapes `fetch_whales` instead of the record being silently dropped. -/
theorem parse_error_propagates_cex :
    fetch_whales initialCacheState 0 (some "k") (.ok [itemC1bad]) (.ok []) 400 100
      = .error .valueError := rfl

/-- C1 (amended): `fetch_whales` absorbs provider transport/HTTP errors and
silently drops raw records whose `value` is missing or unparsable; but
normalization is only exception-free on records whose `blockNum` is absent
or parsable — under that proviso every call returns a well-formed `.ok`
result (the counterexample shows an unparsable non-empty `blockNum`
propagates a `ValueError`). -/
theorem fetch_whales_error_absorption
    (st : CacheState) (now : ℚ) (k : String) (rA rB : ProviderResponse)
    (limit : Nat) (m : ℚ)
    (hk : k ≠ "")
    (hblocks : ∀ item ∈ call_alchemy rA ++ call_alchemy rB, blockNumOk item) :
    (∀ item : RawItem, item.value = none ∨ item.value = some none →
        normalizeItem m item = .ok none)
    ∧ ∃ res, fetch_whales st now (some k) rA rB limit m = .ok res := by
  refine ⟨fun item h => normalizeItem_bad_value h, ?_⟩
  by_cases hc : cacheHit st now
  · rw [fetch_whales_hit_eq hc]
    exact ⟨_, rfl⟩
  · obtain ⟨outp, hp⟩ := processItems_isOk m hblocks
    have hu : get_alchemy_url (some k)
        = .ok ("https://eth-mainnet.g.alchemy.com/v2/" ++ k) := by
      simp only [get_alchemy_url, if_neg hk]
    have hf : fetch_whale_transfers_from_provider (some k) rA rB (min limit 1000) m
        = .ok ((sortByBlockDesc outp).take (min limit 1000)) := by
      simp only [fetch_whale_transfers_from_provider, hu, hp]
    rw [fetch_whales_miss_eq hc, hf]
    exact ⟨_, rfl⟩

/-- Witness for the amended C1: one category in HTTP failure, the other
returning a clean record; the fetch succeeds. -/
theorem fetch_whales_error_absorption_witness :
    (∀ item : RawItem, item.value = none ∨ item.value = some none →
        normalizeItem 100 item = .ok none)
    ∧ ∃ res, fetch_whales initialCacheState 0 (some "k") .httpError
        (.ok [itemC1good]) 400 100 = .ok res :=
  fetch_whales_error_absorption initialCacheState 0 "k" .httpError
    (.ok [itemC1good]) 400 100 (by decide)
    (by
      intro item hit
      simp only [call_alchemy, List.nil_append, List.mem_singleton] at hit
      subst hit
      exact ⟨100, rfl⟩)

/-- C7 counterexample: a missing credential does surface as a per-request
failure.  Process start-up performs no check (the module merely reads the
environment variable); the `RuntimeError` is raised by `_get_alchemy_url`
inside the first fetch cycle, so a call to `fetch_whales` with the
credential absent returns that error to its caller. -/
theorem missing_credential_per_request_cex :
    fetch_whales initialCacheState 0 none (.ok []) (.ok []) 400 100
      = .error .runtimeError := rfl

/-- C7 (amended): the credential check happens at fetch time, not at
startup: with the credential absent (or empty), every `fetch_whales` call
that misses the cache raises `RuntimeError` — a per-request failure — while
a cache-hit call succeeds without the credential ever being consulted. -/
theorem missing_credential_fetch_time
    (st : CacheState) (now : ℚ) (key : Option String) (rA rB : ProviderResponse)
    (limit : Nat) (m : ℚ)
    (hkey : key = none ∨ key = some "") :
    (¬ cacheHit st now →
      fetch_whales st now key rA rB limit m = .error .runtimeError)
    ∧ (cacheHit st now →
      ∃ res, fetch_whales st now key rA rB limit m = .ok res) := by
  constructor
  · intro hc
    have hu : get_alchemy_url key = .error .runtimeError := by
      rcases hkey with rfl | rfl
      · rfl
      · rfl
    have hf : fetch_whale_transfers_from_provider key rA rB (min limit 1000) m
        = .error .runtimeError := by
      simp only [fetch_whale_transfers_from_provider, hu]
    rw [fetch_whales_miss_eq hc, hf]
  · intro hc
    rw [fetch_whales_hit_eq hc]
    exact ⟨_, rfl⟩

/-- Witness for the amended C7 on a concrete cold cache. -/
theorem missing_credential_fetch_time_witness :
    fetch_whales initialCacheState 5 none (.ok []) (.ok []) 400 100
      = .error .runtimeError :=
  (missing_credential_fetch_time initialCacheState 5 none (.ok []) (.ok []) 400 100
      (Or.inl rfl)).1 (by decide)

/-- C8 counterexample: normalization is not total in the block number.  A
record whose `blockNum` is the non-empty unparsable string `"0xQQ"` makes
the normalization step raise `ValueError` rather than default the block
number to 0. -/
theorem blocknum_default_not_total_cex :
    normalizeItem 0 itemC8bad = .error .valueError := rfl

/-- C8 (amended): normalization parses `block_number` from the hexadecimal
`blockNum` and defaults it to 0 only when the field is absent or empty
(falsy); a present, non-empty, unparsable `blockNum` raises `ValueError`,
so the step is not total.  Every accepted record's `block_number` is exactly
what the block-number parse produced. -/
theorem blocknum_parse_behavior :
    (parseBlockNum none = .ok 0 ∧ parseBlockNum (some "") = .ok 0)
    ∧ (∀ (s : String) (n : Int), pyIntBase16 s = some n →
        parseBlockNum (some s) = .ok n)
    ∧ (∀ s : String, s ≠ "" → pyIntBase16 s = none →
        parseBlockNum (some s) = .error .valueError)
    ∧ (∀ (m : ℚ) (item : RawItem) (t : WhaleTransfer),
        normalizeItem m item = .ok (some t) →
        parseBlockNum item.blockNum = .ok t.block_number) := by
  refine ⟨⟨rfl, rfl⟩, ?_, ?_, ?_⟩
  · intro s n hs
    by_cases h : s = ""
    · subst h
      rw [show pyIntBase16 "" = none from rfl] at hs
      exact Option.noConfusion hs
    · simp only [parseBlockNum]
      rw [if_neg h, hs]
  · intro s hne hs
    simp only [parseBlockNum]
    rw [if_neg hne, hs]
  · intro m item t h
    exact (normalizeItem_eq_ok_some h).2.2.2

/-- Witness for the amended C8: the unparsable string raises, the parsable
one parses. -/
theorem blocknum_parse_behavior_witness :
    parseBlockNum (some "zz") = .error .valueError
    ∧ parseBlockNum (some "0x64") = .ok 100 :=
  ⟨blocknum_parse_behavior.2.2.1 "zz" (by decide) rfl,
   blocknum_parse_behavior.2.1 "0x64" 100 rfl⟩

/-- C9 counterexample: a zero-amount record survives the pipeline when
`min_amount = 0`.  The pipeline itself never re-checks for zero amounts —
the code only asks the provider to exclude them via `excludeZeroValue` —
so a zero-valued raw record in the response is normalized and returned. -/
theorem zero_amount_survives_cex :
    processItems 0 [itemC9zero] = .ok [recC9zero] ∧ recC9zero.amount = 0 :=
  ⟨rfl, rfl⟩

/-- C9 (amended): the pipeline always drops entries whose `value` field is
missing, and it drops zero-amount entries whenever the threshold is
positive; but with `min_amount = 0` a zero-amount raw record survives (the
counterexample), the code relying on the provider-side `excludeZeroValue`
flag for that case. -/
theorem pipeline_zero_missing_amount
    (m : ℚ) (raw : List RawItem) (out : List WhaleTransfer)
    (hp : processItems m raw = .ok out) :
    (∀ item : RawItem, item.value = none → normalizeItem m item = .ok none)
    ∧ (0 < m → ∀ t ∈ out, t.amount ≠ 0) := by
  refine ⟨fun item h => normalizeItem_bad_value (Or.inl h), ?_⟩
  intro hm t ht h0
  obtain ⟨item, _, hn⟩ := processItems_mem hp t ht
  have h1 := (normalizeItem_eq_ok_some hn).1
  rw [h0] at h1
  exact absurd hm (not_lt.mpr h1)

/-- Witness for the amended C9: a missing-value record is dropped by a run
with a positive threshold. -/
theorem pipeline_zero_missing_amount_witness :
    (∀ item : RawItem, item.value = none → normalizeItem 50 item = .ok none)
    ∧ ((0:ℚ) < 50 → ∀ t ∈ ([] : List WhaleTransfer), t.amount ≠ 0) :=
  pipeline_zero_missing_amount 50 [itemC9miss] [] rfl

/-- C10: the cached snapshot invariant.  A call that misses the cache stores
a snapshot every record of which meets that call's `min_amount`; and any
later cache-hit call — in particular one with a lower threshold — returns
only records meeting the warming call's threshold, so transfers with
amounts between the two thresholds are never returned even if they exist
upstream. -/
theorem cache_snapshot_threshold_invariant
    (st : CacheState) (now : ℚ) (key : Option String) (rA rB : ProviderResponse)
    (limit : Nat) (m0 : ℚ) (out : List WhaleTransfer) (st1 : CacheState)
    (hmiss : ¬ cacheHit st now)
    (h : fetch_whales st now key rA rB limit m0 = .ok (out, st1)) :
    (∀ t ∈ st1.last_fetch_data, m0 ≤ t.amount)
    ∧ (∀ (now2 : ℚ) (key2 : Option String) (rA2 rB2 : ProviderResponse)
          (limit2 : Nat) (m1 : ℚ) (out2 : List WhaleTransfer) (st2 : CacheState),
        cacheHit st1 now2 →
        fetch_whales st1 now2 key2 rA2 rB2 limit2 m1 = .ok (out2, st2) →
        ∀ t ∈ out2, m0 ≤ t.amount) := by
  rw [fetch_whales_miss_eq hmiss] at h
  rcases hf : fetch_whale_transfers_from_provider key rA rB (min limit 1000) m0
    with e | fresh <;> rw [hf] at h
  · exact Except.noConfusion h
  · injection h with h
    injection h with hA hB
    subst hA
    subst hB
    have hall : ∀ t ∈ fresh, m0 ≤ t.amount := fun t ht => (provider_mem hf t ht).1
    refine ⟨hall, ?_⟩
    intro now2 key2 rA2 rB2 limit2 m1 out2 st2 hc2 h2
    rw [fetch_whales_hit_eq hc2] at h2
    injection h2 with h2
    injection h2 with hA2 hB2
    subst hA2
    intro t ht
    exact hall t (mem_take_amount_filter ht).2

/-- Witness for C10: a cold-cache call with threshold 100 warms the cache
with a 250-unit record. -/
theorem cache_snapshot_threshold_invariant_witness :
    (∀ t ∈ ({ last_fetch_ts := 0, last_fetch_data := [recC10] } : CacheState).last_fetch_data,
        (100:ℚ) ≤ t.amount)
    ∧ (∀ (now2 : ℚ) (key2 : Option String) (rA2 rB2 : ProviderResponse)
          (limit2 : Nat) (m1 : ℚ) (out2 : List WhaleTransfer) (st2 : CacheState),
        cacheHit { last_fetch_ts := 0, last_fetch_data := [recC10] } now2 →
        fetch_whales { last_fetch_ts := 0, last_fetch_data := [recC10] } now2 key2
            rA2 rB2 limit2 m1 = .ok (out2, st2) →
        ∀ t ∈ out2, (100:ℚ) ≤ t.amount) :=
  cache_snapshot_threshold_invariant initialCacheState 0 (some "k") (.ok [itemC10])
    (.ok []) 400 100 [recC10] { last_fetch_ts := 0, last_fetch_data := [recC10] }
    (by decide) rfl

end WhaleTracker
